import Mathlib

/-!
Verification of `seed-lazygourmet-sql/commands/extract_csv.py`.

The file shallowly embeds the PostgreSQL-dump → CSV extractor:

* `parse_copy_statement` embeds the anchored, case-insensitive regex
  `COPY\s+(?:(\w+)\.)?(\w+)\s*\((.*?)\)\s+FROM\s+stdin` (`re.match`) together
  with the table-name derivation and the column-list parsing.
* `parse_data_row` embeds the tab-splitting and `\N` → empty-string rewrite.
* `stepLine` / `process_dump` embed the per-line scanner loop of
  `PostgreSQLDumpParser.process_dump`; the output directory is modelled as a
  function from table names to the list of CSV records currently in that
  table's file (one record per physical line: data lines never contain `\r`
  or `\n`, because the dump is read in universal-newline text mode).
* `compare_with_last_export` embeds the export comparator; a directory is
  modelled as an association list from file name to the total number of
  physical lines in that file.

Character classes (`\w`, `\s`, `str.strip`, `str.lower`) are modelled over
ASCII, which covers the dump format's identifiers and delimiters.
-/

/-- Python's `\s` (ASCII range), also used by `str.strip()`. -/
def isPySpace (c : Char) : Bool :=
  c = ' ' || c = '\t' || c = '\n' || c = '\r' || c = '\x0b' || c = '\x0c'

/-- Python's `\w` (ASCII range): letters, digits and underscore. -/
def isWordChar (c : Char) : Bool :=
  c.isAlphanum || c = '_'

/-- Remove trailing characters satisfying the recursion (here: used for both
`str.strip` and `str.rstrip`), keeping the leading part intact. -/
def stripTrailingBy (p : Char → Bool) : List Char → List Char
  | [] => []
  | c :: cs =>
    match stripTrailingBy p cs with
    | [] => if p c then [] else [c]
    | d :: ds => c :: d :: ds

/-- Python `str.strip()` (ASCII whitespace): drop leading and trailing
whitespace. -/
def pyStripChars (l : List Char) : List Char :=
  stripTrailingBy isPySpace (l.dropWhile isPySpace)

/-- Python `str.rstrip('\n')`: drop all trailing newline characters. -/
def rstripNl (l : List Char) : List Char :=
  stripTrailingBy (fun c => c = '\n') l

/-- Python `line.startswith(pre)`. -/
def pyStartsWith (pre line : String) : Bool :=
  line.data.take pre.data.length == pre.data

/-- Python `s.split(sep)` for a one-character separator `sep`
(`''.split(sep) = ['']`, separators are not grouped). -/
def splitOnSep (sep : Char) : List Char → List (List Char)
  | [] => [[]]
  | c :: cs =>
    if c = sep then [] :: splitOnSep sep cs
    else
      match splitOnSep sep cs with
      | [] => [[c]]
      | f :: r => (c :: f) :: r

/-- Strip a literal pattern case-insensitively from the front of the input,
returning the rest (regex literal under `re.IGNORECASE`). -/
def dropCI : List Char → List Char → Option (List Char)
  | [], l => some l
  | _ :: _, [] => none
  | p :: ps, c :: cs => if c.toLower = p.toLower then dropCI ps cs else none

/-- Consume `\s+`: at least one whitespace character, then the maximal run
(the following regex atoms never match whitespace, so the greedy run is
exact). -/
def dropSpaces1 : List Char → Option (List Char)
  | [] => none
  | c :: cs => if isPySpace c then some (cs.dropWhile isPySpace) else none

/-- Does the input match `\s+FROM\s+stdin` (case-insensitively) at its
front?  This is the regex tail after the closing parenthesis; `re.match`
imposes no end anchor, so trailing text (e.g. `;`) is allowed. -/
def tailMatches (l : List Char) : Bool :=
  match dropSpaces1 l with
  | none => false
  | some l1 =>
    match dropCI "FROM".data l1 with
    | none => false
    | some l2 =>
      match dropSpaces1 l2 with
      | none => false
      | some l3 => (dropCI "stdin".data l3).isSome

/-- The lazy group `\((.*?)\)\s+FROM\s+stdin` after the opening parenthesis:
extend the column text to each successive `)` until the tail matches; `.`
does not match a newline, so hitting `\n` fails the whole match. -/
def findCols : List Char → List Char → Option (List Char)
  | _, [] => none
  | acc, c :: cs =>
    if c = '\n' then none
    else if c = ')' && tailMatches cs then some acc.reverse
    else findCols (c :: acc) cs

/-- After `COPY\s+` and the captured identifiers: `\s*\(` then the column
group and the `FROM stdin` tail.  Returns `(schema?, table, raw column
text)`. -/
def afterIdents (schema : Option (List Char)) (table : List Char)
    (r : List Char) : Option (Option (List Char) × List Char × List Char) :=
  match r.dropWhile isPySpace with
  | '(' :: r7 => (findCols [] r7).map (fun cols => (schema, table, cols))
  | _ => none

/-- The full anchored regex
`COPY\s+(?:(\w+)\.)?(\w+)\s*\((.*?)\)\s+FROM\s+stdin` under `re.IGNORECASE`.
The character classes `\w`, `\s`, `.`/`(` are pairwise disjoint, so the
backtracking regex is equivalent to this deterministic scan: the optional
schema group is taken exactly when a dot follows the first identifier. -/
def matchCopy (l : List Char) : Option (Option (List Char) × List Char × List Char) :=
  match dropCI "COPY".data l with
  | none => none
  | some r1 =>
    match dropSpaces1 r1 with
    | none => none
    | some r2 =>
      let ident1 := r2.takeWhile isWordChar
      let r3 := r2.dropWhile isWordChar
      if ident1 = [] then none
      else
        match r3 with
        | '.' :: r4 =>
          let ident2 := r4.takeWhile isWordChar
          let r5 := r4.dropWhile isWordChar
          if ident2 = [] then none
          else afterIdents (some ident1) ident2 r5
        | _ => afterIdents none ident1 r3

/-- Python `col.startswith('"') and col.endswith('"')` → `col[1:-1]`. -/
def stripQuotes : List Char → List Char
  | [] => []
  | c :: cs =>
    if c = '"' && ((c :: cs).getLast? == some '"') then cs.dropLast
    else c :: cs

/-- `PostgreSQLDumpParser.parse_copy_statement`: match the COPY pattern,
derive the output table name (schema joined by `_` unless absent or
`public` after lowercasing), and parse the column list (split on `,`,
strip, unquote). -/
def parse_copy_statement (line : String) : Option (String × List String) :=
  match matchCopy line.data with
  | none => none
  | some (schema, table, colsStr) =>
    let fullName : List Char :=
      match schema with
      | some s => if s.map Char.toLower = "public".data then table
                  else s ++ ('_' :: table)
      | none => table
    let columns : List String :=
      (splitOnSep ',' colsStr).map (fun c => String.mk (stripQuotes (pyStripChars c)))
    some (String.mk fullName, columns)

/-- `PostgreSQLDumpParser.parse_data_row`: `None` on the end-of-data
sentinel, otherwise tab-split the newline-stripped line and rewrite fields
equal to `\N` to the empty string. -/
def parse_data_row (line : String) : Option (List String) :=
  if line = "\\.\n" ∨ line = "\\." then none
  else
    some ((splitOnSep '\t' (rstripNl line.data)).map
      (fun f => if f = "\\N".data then "" else String.mk f))

/-- Scanner state of `process_dump`: the output directory (`files`, one
record list per table file), the open-table bookkeeping, and the run
statistics.  `warnings` records the table named in each malformed-row
warning. -/
structure ScanState where
  files : String → List (List String)
  currentTable : Option String
  currentColumns : List String
  inCopyData : Bool
  tablesFound : Nat
  totalRows : Int
  reports : List (String × Int)
  warnings : List String

def initState : ScanState :=
  { files := fun _ => [], currentTable := none, currentColumns := [],
    inCopyData := false, tablesFound := 0, totalRows := 0,
    reports := [], warnings := [] }

/-- `open(csv_path, 'w')`: create or truncate the table's file. -/
def setFile (fs : String → List (List String)) (t : String)
    (v : List (List String)) : String → List (List String) :=
  fun u => if u = t then v else fs u

/-- `writer.writerow`: append one record to the open file. -/
def appendRow (fs : String → List (List String)) (t : String)
    (row : List String) : String → List (List String) :=
  fun u => if u = t then fs u ++ [row] else fs u

/-- A matched COPY header: close the previous file (content unchanged),
truncate/create the new table's file, write the header record, and enter
the data-block state. -/
def openTable (s : ScanState) (t : String) (cols : List String) : ScanState :=
  { s with files := setFile s.files t [cols], currentTable := some t,
           currentColumns := cols, inCopyData := true,
           tablesFound := s.tablesFound + 1 }

/-- The end-of-data sentinel: leave the data-block state and report the
row count obtained by re-reading the just-written file (line count minus
the header line).  `current_table = None` here is unreachable from
`initState` because `in_copy_data` is only set together with a table. -/
def closeTable (s : ScanState) : ScanState :=
  match s.currentTable with
  | some t =>
    let n : Int := ((s.files t).length : Int) - 1
    { s with inCopyData := false, totalRows := s.totalRows + n,
             reports := s.reports ++ [(t, n)] }
  | none => { s with inCopyData := false }

/-- The `if in_copy_data:` part of the loop body: sentinel check
(`line.strip() == '\\.'`), then data-row parsing, field-count validation
and the write or warning. -/
def dataStep (s : ScanState) (line : String) : ScanState :=
  if s.inCopyData then
    if pyStripChars line.data = "\\.".data then closeTable s
    else
      match parse_data_row line with
      | none => s
      | some fields =>
        match s.currentTable with
        | none => s
        | some t =>
          if fields.length = s.currentColumns.length then
            { s with files := appendRow s.files t fields }
          else
            { s with warnings := s.warnings ++ [t] }
  else s

/-- One iteration of the scan loop of `process_dump`: the
`line.startswith('COPY ')` check runs on every line (it is not guarded by
the data-block flag); on a successful pattern match the loop `continue`s
after opening the new table, otherwise it falls through to the data-row
handling. -/
def stepLine (s : ScanState) (line : String) : ScanState :=
  if pyStartsWith "COPY " line then
    match parse_copy_statement line with
    | some (t, cols) => openTable s t cols
    | none => dataStep s line
  else dataStep s line

/-- `process_dump` result: the pure scan cannot raise, so the `except`
branch (I/O failure, which returns `False`) is never taken and `success`
is `true`; closing the last open file at end of input does not change any
file's content. -/
structure RunResult where
  success : Bool
  final : ScanState

def process_dump (lines : List String) : RunResult :=
  { success := true, final := lines.foldl stepLine initState }

/-- The header recognized on a line by the scan loop, if any (the
`startswith` gate plus the regex match); used to state freshness of table
names across a run. -/
def headerOf (line : String) : Option String :=
  if pyStartsWith "COPY " line then (parse_copy_statement line).map Prod.fst
  else none

def headerNames (lines : List String) : List String :=
  lines.filterMap headerOf

def reportedNames (s : ScanState) : List String :=
  s.reports.map Prod.fst

/-- Python `csv` module, `QUOTE_MINIMAL`: a field is quoted iff it contains
the delimiter, the quote character, or a line-terminator character. -/
def needsQuote (f : String) : Bool :=
  f.data.any (fun c => c = ',' || c = '"' || c = '\r' || c = '\n')

/-- Python `csv` module rendering of one field under `QUOTE_MINIMAL`:
surround with quotes and double the inner quotes when needed, otherwise
pass the field through unchanged. -/
def csvQuote (f : String) : String :=
  if needsQuote f then
    String.mk ('"' :: (f.data.flatMap (fun c => if c = '"' then ['"', '"'] else [c]) ++ ['"']))
  else f

/-- A CSV export directory as the comparator sees it: file name →
total number of physical lines in the file. -/
abbrev CsvDir := List (String × Nat)

def lookupFile : CsvDir → String → Option Nat
  | [], _ => none
  | p :: ps, f => if p.1 = f then some p.2 else lookupFile ps f

/-- Classification printed by `compare_with_last_export` for one file
name; counts are data lines (total lines minus the header line). -/
inductive FileComparison where
  | newFile : FileComparison
  | missing : FileComparison
  | unchanged : Int → FileComparison
  | changed : Int → Int → FileComparison
deriving DecidableEq, Repr

/-- Per-file comparison: `old` existence is checked first (NEW), then
`new` (MISSING), then the data-line counts. -/
def classifyFile (dNew dOld : CsvDir) (f : String) : FileComparison :=
  match lookupFile dOld f with
  | none => FileComparison.newFile
  | some o =>
    match lookupFile dNew f with
    | none => FileComparison.missing
    | some n =>
      if (n : Int) - 1 = (o : Int) - 1 then FileComparison.unchanged ((n : Int) - 1)
      else FileComparison.changed ((n : Int) - 1) (((n : Int) - 1) - ((o : Int) - 1))

/-- `sorted(new_files | old_files)`: the distinct names, sorted
lexicographically. -/
def unionNames (dNew dOld : CsvDir) : List String :=
  ((dNew.map Prod.fst) ++ (dOld.map Prod.fst)).dedup.insertionSort (· ≤ ·)

/-- Output of `compare_with_last_export`: whether the missing-directory
warning was logged, and the per-file classifications in the order they are
printed. -/
structure CompareOutput where
  missingDirWarning : Bool
  results : List (String × FileComparison)
deriving DecidableEq, Repr

/-- `PostgreSQLDumpParser.compare_with_last_export`; `none` models a
non-existent previous-export directory, for which the function logs a
warning and returns without comparing anything. -/
def compare_with_last_export (dNew : CsvDir) (dOld : Option CsvDir) : CompareOutput :=
  match dOld with
  | none => { missingDirWarning := true, results := [] }
  | some old =>
    { missingDirWarning := false,
      results := (unionNames dNew old).map (fun f => (f, classifyFile dNew old f)) }

/-- Invariant carried through the scan: row totals match the reports, every
reported table's file has exactly its reported data-line count, the open
table (if any) is not yet reported and will not be re-opened, and the
table names still to be opened are fresh and distinct. -/
def ScanInv (s : ScanState) (rest : List String) : Prop :=
  s.totalRows = (s.reports.map Prod.snd).sum
  ∧ (∀ p ∈ s.reports, ((s.files p.1).length : Int) = p.2 + 1)
  ∧ (s.inCopyData = true →
      ∃ t, s.currentTable = some t ∧ t ∉ reportedNames s ∧ t ∉ headerNames rest)
  ∧ (headerNames rest).Nodup
  ∧ (∀ t ∈ headerNames rest, t ∉ reportedNames s)

/-- The scenario input of §8 of the design document. -/
def ordersInput : List String :=
  ["COPY public.orders (id, total) FROM stdin;\n",
   "1\t9.99\n",
   "2\t\\N\n",
   "\\.\n"]

/-- A dump whose data block never reaches the end sentinel. -/
def truncatedInput : List String :=
  ["COPY t (id) FROM stdin;\n", "1\n", "2\n"]

/-- A scanner state inside the data block of table `t` (one column). -/
def c5State : ScanState :=
  stepLine initState "COPY t (a) FROM stdin;\n"

def c5Line : String := "COPY u (b) FROM stdin;\n"

/-- A scanner state inside the data block of a two-column table. -/
def c3State : ScanState :=
  stepLine initState "COPY t (a, b) FROM stdin;\n"

/-- The table-name derivation as the (amended) specification states it:
`table` when the schema is absent or is `public` up to ASCII case,
`schema_table` otherwise. -/
def claimed_table_name (schema : Option (List Char)) (table : List Char) : List Char :=
  match schema with
  | none => table
  | some s => if s.map Char.toLower = "public".data then table
              else s ++ ('_' :: table)

/-! ### Helper lemmas -/

theorem stripTrailingBy_cons_of_neg (p : Char → Bool) (c : Char) (xs : List Char)
    (hc : p c = false) :
    stripTrailingBy p (c :: xs) = c :: stripTrailingBy p xs := by
  rw [stripTrailingBy]
  cases h : stripTrailingBy p xs with
  | nil => simp [hc]
  | cons d ds => rfl

theorem pyStartsWith_copy_data (line : String) (h : pyStartsWith "COPY " line = true) :
    ∃ rest, line.data = 'C' :: rest := by
  rw [pyStartsWith, beq_iff_eq] at h
  have hc : "COPY ".data = ['C', 'O', 'P', 'Y', ' '] := rfl
  rw [hc] at h
  cases hd : line.data with
  | nil => rw [hd] at h; simp at h
  | cons a l =>
    rw [hd] at h
    simp only [List.take] at h
    exact ⟨l, by rw [(List.cons_eq_cons.mp h).1]⟩

theorem pyStrip_copy_ne_sentinel (line : String) (h : pyStartsWith "COPY " line = true) :
    pyStripChars line.data ≠ "\\.".data := by
  obtain ⟨rest, hd⟩ := pyStartsWith_copy_data line h
  have hC : isPySpace 'C' = false := rfl
  rw [hd, pyStripChars, List.dropWhile_cons, hC]
  simp only [Bool.false_eq_true, if_false]
  rw [stripTrailingBy_cons_of_neg _ _ _ hC]
  intro hEq
  exact absurd (List.cons_eq_cons.mp hEq).1 (by decide)

theorem forall₂_nullRewrite (raw : List (List Char)) :
    List.Forall₂ (fun (f : String) (r : List Char) =>
      (r = "\\N".data → f = "") ∧ (r ≠ "\\N".data → f = String.mk r))
      (raw.map (fun f => if f = "\\N".data then "" else String.mk f)) raw := by
  induction raw with
  | nil => exact List.Forall₂.nil
  | cons r rs ih =>
    refine List.Forall₂.cons ?_ ih
    by_cases hr : r = "\\N".data
    · simp [hr]
    · simp [hr]

theorem dataStep_tablesFound (s : ScanState) (line : String) :
    (dataStep s line).tablesFound = s.tablesFound := by
  unfold dataStep closeTable
  repeat' split
  all_goals rfl

theorem dataStep_inCopyData_of_not_sentinel (s : ScanState) (line : String)
    (hns : pyStripChars line.data ≠ "\\.".data) :
    (dataStep s line).inCopyData = s.inCopyData := by
  unfold dataStep
  by_cases hin : s.inCopyData = true
  · rw [if_pos hin, if_neg hns]
    repeat' split
    all_goals rfl
  · rw [if_neg hin]

theorem dataStep_inCopyData_sentinel (s : ScanState) (line : String)
    (hin : s.inCopyData = true) (hs : pyStripChars line.data = "\\.".data) :
    (dataStep s line).inCopyData = false := by
  unfold dataStep
  rw [if_pos hin, if_pos hs]
  unfold closeTable
  cases s.currentTable <;> rfl

/-! ### Claim C1 -/

/-- C1 counterexample: on `COPY Public.items (sku) FROM stdin;` the schema
qualifier is present and differs from the literal `'public'`, yet the
derived table name is the bare `items`, not `Public_items` as the claim
(read with literal string equality) requires. -/
theorem copy_schema_case_counterexample :
    matchCopy "COPY Public.items (sku) FROM stdin;".data =
      some (some "Public".data, "items".data, "sku".data)
    ∧ "Public".data ≠ "public".data
    ∧ (parse_copy_statement "COPY Public.items (sku) FROM stdin;").map Prod.fst =
        some "items"
    ∧ ("items" : String) ≠ "Public_items" := by
  refine ⟨by decide, by decide, by decide, by decide⟩

/-- C1 (amended): for every line matching the bulk-load header pattern, the
derived table name (and output file stem) is the bare table identifier when
the schema qualifier is absent or equals `public` after ASCII lowercasing
(the comparison is case-insensitive), and is the schema and table
identifiers joined by an underscore otherwise. -/
theorem copy_table_name (l : List Char) (sch : Option (List Char)) (tb cols : List Char)
    (h : matchCopy l = some (sch, tb, cols)) :
    (parse_copy_statement (String.mk l)).map Prod.fst =
      some (String.mk (claimed_table_name sch tb)) := by
  have hd : (String.mk l).data = l := rfl
  rw [parse_copy_statement, hd, h]
  cases sch with
  | none => rfl
  | some s =>
    rw [claimed_table_name]
    by_cases hs : s.map Char.toLower = "public".data
    · simp [hs]
    · simp [hs]

/-- C1 witness: the §8 scenario `COPY ar.items (sku) FROM stdin;` derives
the name `ar_items`. -/
theorem copy_table_name_witness :
    (parse_copy_statement (String.mk "COPY ar.items (sku) FROM stdin;".data)).map Prod.fst =
      some (String.mk (claimed_table_name (some "ar".data) "items".data)) :=
  copy_table_name "COPY ar.items (sku) FROM stdin;".data (some "ar".data)
    "items".data "sku".data (by decide)

/-! ### Claim C2 -/

/-- C2: for every non-sentinel data line, each tab-split field equal to the
two-character null sentinel `\N` is rewritten to the empty string and every
other field passes through unchanged; fields free of the delimiter, quote
and line-terminator characters are also unchanged by the CSV quoting on
write; and the §8 `orders` scenario produces header plus two data rows, the
second with an empty second field, with a reported row count of 2. -/
theorem data_row_null_rewrite :
    (∀ (line : String) (fs : List String), parse_data_row line = some fs →
      List.Forall₂ (fun (f : String) (r : List Char) =>
        (r = "\\N".data → f = "") ∧ (r ≠ "\\N".data → f = String.mk r))
        fs (splitOnSep '\t' (rstripNl line.data)))
    ∧ (∀ f : String, needsQuote f = false → csvQuote f = f)
    ∧ (process_dump ordersInput).final.files "orders" =
        [["id", "total"], ["1", "9.99"], ["2", ""]]
    ∧ (process_dump ordersInput).final.reports = [("orders", 2)] := by
  refine ⟨?_, ?_, by decide, by decide⟩
  · intro line fs h
    by_cases hline : line = "\\.\n" ∨ line = "\\."
    · rw [parse_data_row, if_pos hline] at h; cases h
    · rw [parse_data_row, if_neg hline] at h
      injection h with h2
      rw [← h2]
      exact forall₂_nullRewrite _
  · intro f hf
    rw [csvQuote, if_neg (by simp [hf])]

/-- C2 witness: the rewrite property applied to the concrete line
`1\t\N\n`. -/
theorem data_row_null_rewrite_witness :
    List.Forall₂ (fun (f : String) (r : List Char) =>
      (r = "\\N".data → f = "") ∧ (r ≠ "\\N".data → f = String.mk r))
      ["1", ""] (splitOnSep '\t' (rstripNl "1\t\\N\n".data)) :=
  data_row_null_rewrite.1 "1\t\\N\n" ["1", ""] (by decide)

/-! ### Claim C3 -/

/-- C3: a data line whose tab-split field count differs from the active
header's column count is never written to the open output sequence, a
warning naming the active table is recorded, processing continues in the
data block, and the row is excluded from the reported row counts. -/
theorem malformed_row_skipped (s : ScanState) (line t : String) (fields : List String)
    (hin : s.inCopyData = true)
    (hct : s.currentTable = some t)
    (hnh : pyStartsWith "COPY " line = false ∨ parse_copy_statement line = none)
    (hns : pyStripChars line.data ≠ "\\.".data)
    (hpr : parse_data_row line = some fields)
    (hlen : fields.length ≠ s.currentColumns.length) :
    (stepLine s line).files = s.files
    ∧ (stepLine s line).totalRows = s.totalRows
    ∧ (stepLine s line).reports = s.reports
    ∧ (stepLine s line).inCopyData = true
    ∧ (stepLine s line).warnings = s.warnings ++ [t] := by
  have hstep : stepLine s line = { s with warnings := s.warnings ++ [t] } := by
    have hdata : dataStep s line = { s with warnings := s.warnings ++ [t] } := by
      rw [dataStep, if_pos hin, if_neg hns, hpr, hct]
      simp [hlen]
    cases hnh with
    | inl h => rw [stepLine, if_neg (by simp [h]), hdata]
    | inr h =>
      by_cases hP : pyStartsWith "COPY " line
      · rw [stepLine, if_pos hP, h, hdata]
      · rw [stepLine, if_neg hP, hdata]
  rw [hstep]
  exact ⟨rfl, rfl, rfl, hin, rfl⟩

/-- C3 witness: inside the two-column block of `c3State`, the one-field
line `1` is skipped with a warning naming table `t`. -/
theorem malformed_row_skipped_witness :
    (stepLine c3State "1\n").files = c3State.files
    ∧ (stepLine c3State "1\n").totalRows = c3State.totalRows
    ∧ (stepLine c3State "1\n").reports = c3State.reports
    ∧ (stepLine c3State "1\n").inCopyData = true
    ∧ (stepLine c3State "1\n").warnings = c3State.warnings ++ ["t"] :=
  malformed_row_skipped c3State "1\n" "t" ["1"] (by decide) (by decide)
    (Or.inl (by decide)) (by decide) (by decide) (by decide)

/-! ### Claim C4 -/

/-- C4 counterexample: the line `" \\.\n"` is not the sentinel after
trimming only the trailing newline, yet the scanner leaves the data block
on it, because the code strips whitespace from both ends
(`line.strip() == '\\.'`). -/
theorem end_sentinel_counterexample :
    c5State.inCopyData = true
    ∧ rstripNl " \\.\n".data ≠ "\\.".data
    ∧ (stepLine c5State " \\.\n").inCopyData = false := by
  refine ⟨by decide, by decide, by decide⟩

/-- C4 (amended): while inside a data block, the end-of-block transition
occurs exactly when the line equals `\.` after stripping leading and
trailing whitespace (Python `str.strip()`); for any other line the scanner
stays in the data block. -/
theorem end_sentinel_strip (s : ScanState) (line : String) (hin : s.inCopyData = true) :
    (stepLine s line).inCopyData = false ↔ pyStripChars line.data = "\\.".data := by
  constructor
  · intro h
    by_contra hns
    have key : (stepLine s line).inCopyData = true := by
      rw [stepLine]
      by_cases hP : pyStartsWith "COPY " line
      · rw [if_pos hP]
        cases hm : parse_copy_statement line with
        | some tc => rfl
        | none => rw [dataStep_inCopyData_of_not_sentinel s line hns]; exact hin
      · rw [if_neg hP, dataStep_inCopyData_of_not_sentinel s line hns]; exact hin
    rw [key] at h; cases h
  · intro hs
    have hP : ¬ pyStartsWith "COPY " line = true := by
      intro hP; exact pyStrip_copy_ne_sentinel line hP hs
    rw [stepLine, if_neg hP]
    exact dataStep_inCopyData_sentinel s line hin hs

/-- C4 witness: inside a data block, the exact sentinel line ends the
block. -/
theorem end_sentinel_strip_witness :
    (stepLine c5State "\\.\n").inCopyData = false ↔
      pyStripChars "\\.\n".data = "\\.".data :=
  end_sentinel_strip c5State "\\.\n" (by decide)

/-! ### Claim C5 -/

/-- C5 counterexample: inside the data block of table `t` (one column), the
line `COPY u (b) FROM stdin;` is recognized as a new header — the scanner
opens table `u` — instead of being appended to `t` as the one-field data
row the claim predicts. -/
theorem header_in_block_counterexample :
    c5State.inCopyData = true
    ∧ parse_copy_statement c5Line = some ("u", ["b"])
    ∧ (stepLine c5State c5Line).currentTable = some "u"
    ∧ (stepLine c5State c5Line).tablesFound = 2
    ∧ (stepLine c5State c5Line).files "t" = [["a"]]
    ∧ (stepLine c5State c5Line).files "t" ≠ [["a"], ["COPY u (b) FROM stdin;"]] := by
  refine ⟨by decide, by decide, by decide, by decide, by decide, by decide⟩

/-- C5 (amended): header recognition is attempted for every line beginning
with `COPY `, regardless of the data-block state — inside a data block a
matching line starts a new table rather than being treated as a data row —
and a `COPY `-line that does not match the pattern falls through to the
data-row handling. -/
theorem header_recognized_any_state :
    (∀ (s : ScanState) (line t : String) (cols : List String),
        pyStartsWith "COPY " line = true → parse_copy_statement line = some (t, cols) →
        stepLine s line =
          { s with
            files := setFile s.files t [cols],
            currentTable := some t,
            currentColumns := cols,
            inCopyData := true,
            tablesFound := s.tablesFound + 1 })
    ∧ (∀ (s : ScanState) (line : String),
        pyStartsWith "COPY " line = true → parse_copy_statement line = none →
        stepLine s line = dataStep s line) := by
  constructor
  · intro s line t cols hP hm
    rw [stepLine, if_pos hP, hm]
    rfl
  · intro s line hP hm
    rw [stepLine, if_pos hP, hm]

/-- C5 witness: the header-opening behaviour at the concrete in-block state
`c5State` and header line `c5Line`. -/
theorem header_recognized_any_state_witness :
    stepLine c5State c5Line =
      { c5State with
        files := setFile c5State.files "u" [["b"]],
        currentTable := some "u",
        currentColumns := ["b"],
        inCopyData := true,
        tablesFound := c5State.tablesFound + 1 } :=
  header_recognized_any_state.1 c5State c5Line "u" ["b"] (by decide) (by decide)

/-! ### Claim C7 -/

/-- C7: reaching end of input with a data block still open raises no error:
the run completes successfully for every input, and on the truncated
scenario the block's file keeps its header and rows while no end-of-block
report is emitted. -/
theorem truncated_block_tolerated :
    (∀ lines : List String, (process_dump lines).success = true)
    ∧ (process_dump truncatedInput).final.inCopyData = true
    ∧ (process_dump truncatedInput).final.files "t" = [["id"], ["1"], ["2"]]
    ∧ (process_dump truncatedInput).final.reports = []
    ∧ (process_dump truncatedInput).final.tablesFound = 1 := by
  refine ⟨fun lines => rfl, by decide, by decide, by decide, by decide⟩

/-! ### Claim C9 -/

/-- C9: when the previous-export directory does not exist, the comparator
records the warning and returns with no comparison output, and the overall
run is still reported successful. -/
theorem missing_compare_dir_skipped :
    (∀ d : CsvDir, compare_with_last_export d none =
      { missingDirWarning := true, results := [] })
    ∧ (∀ lines : List String, (process_dump lines).success = true) :=
  ⟨fun _ => rfl, fun _ => rfl⟩

/-! ### Claim C10 -/

/-- C10: a line can start a new header only if it begins with the exact
uppercase prefix `COPY `; outside a data block any other line leaves the
state unchanged; and although the pattern itself matches `copy` in any
letter case, a lowercase introducer line is ignored by the scanner. -/
theorem copy_case_gate :
    (∀ (s : ScanState) (line : String),
        (stepLine s line).tablesFound ≠ s.tablesFound → pyStartsWith "COPY " line = true)
    ∧ (∀ (s : ScanState) (line : String),
        s.inCopyData = false → pyStartsWith "COPY " line = false → stepLine s line = s)
    ∧ parse_copy_statement "copy public.t (a) FROM stdin;" = some ("t", ["a"])
    ∧ stepLine initState "copy public.t (a) FROM stdin;\n" = initState := by
  refine ⟨?_, ?_, by decide, rfl⟩
  · intro s line h
    by_contra hP
    have hP2 : pyStartsWith "COPY " line = false := by
      simpa using hP
    apply h
    rw [stepLine, if_neg (by simp [hP2])]
    exact dataStep_tablesFound s line
  · intro s line hin hP
    rw [stepLine, if_neg (by simp [hP]), dataStep, if_neg (by simp [hin])]

/-- C10 witness: a non-`COPY ` line outside a data block is ignored. -/
theorem copy_case_gate_witness :
    stepLine initState "hello\n" = initState :=
  copy_case_gate.2.1 initState "hello\n" rfl (by decide)

/-! ### Claim C6: the scan invariant -/

theorem dataStep_inv (s : ScanState) (line : String) (rest : List String)
    (h : ScanInv s (line :: rest)) (hhd : headerOf line = none) :
    ScanInv (dataStep s line) rest := by
  obtain ⟨hA, hB, hC, hD, hE⟩ := h
  have hnames : headerNames (line :: rest) = headerNames rest := by
    rw [headerNames, List.filterMap_cons, hhd, ← headerNames]
  rw [hnames] at hC hD hE
  by_cases hin : s.inCopyData = true
  · by_cases hsen : pyStripChars line.data = "\\.".data
    · obtain ⟨t, hct, hnr, hnf⟩ := hC hin
      have hds : dataStep s line =
          { s with inCopyData := false,
                   totalRows := s.totalRows + (((s.files t).length : Int) - 1),
                   reports := s.reports ++ [(t, ((s.files t).length : Int) - 1)] } := by
        rw [dataStep, if_pos hin, if_pos hsen, closeTable, hct]
      rw [hds]
      unfold ScanInv
      refine ⟨?_, ?_, ?_, hD, ?_⟩
      · simp [List.map_append, hA]
      · intro p hp
        rcases List.mem_append.mp hp with hp1 | hp2
        · exact hB p hp1
        · have hp3 : p = (t, ((s.files t).length : Int) - 1) := by simpa using hp2
          subst hp3
          simp
      · intro hfalse; cases hfalse
      · intro u hu hmem
        rw [reportedNames, List.map_append] at hmem
        rcases List.mem_append.mp hmem with hm1 | hm2
        · exact hE u hu hm1
        · have : u = t := by simpa using hm2
          exact hnf (this ▸ hu)
    · obtain ⟨t, hct, hnr, hnf⟩ := hC hin
      cases hpr : parse_data_row line with
      | none =>
        have hds : dataStep s line = s := by
          rw [dataStep, if_pos hin, if_neg hsen, hpr]
        rw [hds]
        exact ⟨hA, hB, fun _ => ⟨t, hct, hnr, hnf⟩, hD, hE⟩
      | some fields =>
        by_cases hlen : fields.length = s.currentColumns.length
        · have hds : dataStep s line = { s with files := appendRow s.files t fields } := by
            rw [dataStep, if_pos hin, if_neg hsen, hpr, hct]
            simp [hlen]
          rw [hds]
          unfold ScanInv
          refine ⟨hA, ?_, ?_, hD, hE⟩
          · intro p hp
            have hne : p.1 ≠ t := fun he => hnr (he ▸ List.mem_map_of_mem Prod.fst hp)
            have hfs : appendRow s.files t fields p.1 = s.files p.1 := by
              rw [appendRow]; simp [hne]
            show ((appendRow s.files t fields p.1).length : Int) = p.2 + 1
            rw [hfs]
            exact hB p hp
          · intro _
            exact ⟨t, hct, hnr, hnf⟩
        · have hds : dataStep s line = { s with warnings := s.warnings ++ [t] } := by
            rw [dataStep, if_pos hin, if_neg hsen, hpr, hct]
            simp [hlen]
          rw [hds]
          exact ⟨hA, hB, fun _ => ⟨t, hct, hnr, hnf⟩, hD, hE⟩
  · have hds : dataStep s line = s := by rw [dataStep, if_neg hin]
    rw [hds]
    exact ⟨hA, hB, hC, hD, hE⟩

theorem stepLine_inv (s : ScanState) (line : String) (rest : List String)
    (h : ScanInv s (line :: rest)) : ScanInv (stepLine s line) rest := by
  by_cases hP : pyStartsWith "COPY " line = true
  · cases hm : parse_copy_statement line with
    | none =>
      have hhd : headerOf line = none := by rw [headerOf, if_pos hP, hm]; rfl
      have hds : stepLine s line = dataStep s line := by rw [stepLine, if_pos hP, hm]
      rw [hds]
      exact dataStep_inv s line rest h hhd
    | some tc =>
      obtain ⟨t, cols⟩ := tc
      have hhd : headerOf line = some t := by rw [headerOf, if_pos hP, hm]; rfl
      have hds : stepLine s line = openTable s t cols := by
        rw [stepLine, if_pos hP, hm]
      obtain ⟨hA, hB, _, hD, hE⟩ := h
      have hnames : headerNames (line :: rest) = t :: headerNames rest := by
        rw [headerNames, List.filterMap_cons, hhd, ← headerNames]
      rw [hnames] at hD hE
      have htf : t ∉ headerNames rest := (List.nodup_cons.mp hD).1
      have hDr : (headerNames rest).Nodup := (List.nodup_cons.mp hD).2
      have htr : t ∉ reportedNames s := hE t (List.mem_cons_self t _)
      rw [hds]
      unfold ScanInv openTable
      refine ⟨hA, ?_, ?_, hDr, ?_⟩
      · intro p hp
        have hne : p.1 ≠ t := fun he => htr (he ▸ List.mem_map_of_mem Prod.fst hp)
        show ((setFile s.files t [cols] p.1).length : Int) = p.2 + 1
        rw [setFile]
        simp only [if_neg hne]
        exact hB p hp
      · intro _
        exact ⟨t, rfl, htr, htf⟩
      · intro u hu
        exact hE u (List.mem_cons_of_mem t hu)
  · have hhd : headerOf line = none := by rw [headerOf, if_neg hP]
    have hds : stepLine s line = dataStep s line := by rw [stepLine, if_neg hP]
    rw [hds]
    exact dataStep_inv s line rest h hhd

theorem scanInv_init (lines : List String) (hnd : (headerNames lines).Nodup) :
    ScanInv initState lines := by
  unfold ScanInv
  refine ⟨rfl, ?_, ?_, hnd, ?_⟩
  · intro p hp
    simp [initState] at hp
  · intro hf
    simp [initState] at hf
  · intro u _ hmem
    simp [reportedNames, initState] at hmem

theorem scanInv_foldl (lines : List String) :
    ∀ s : ScanState, ScanInv s lines → ScanInv (lines.foldl stepLine s) [] := by
  induction lines with
  | nil => intro s h; simpa using h
  | cons l ls ih =>
    intro s h
    rw [List.foldl_cons]
    exact ih (stepLine s l) (stepLine_inv s l ls h)

/-- C6: when the header lines of a run derive pairwise-distinct table
names, every end-of-block report `(t, r)` satisfies that table `t`'s output
file holds exactly `r` data lines besides its header line, and the
aggregate total-rows figure is the sum of the reported per-table counts. -/
theorem rowcount_roundtrip (lines : List String)
    (hnd : (headerNames lines).Nodup) :
    (process_dump lines).final.totalRows =
      (((process_dump lines).final.reports).map Prod.snd).sum
    ∧ ∀ p ∈ (process_dump lines).final.reports,
        (((process_dump lines).final.files p.1).length : Int) = p.2 + 1 := by
  have h := scanInv_foldl lines initState (scanInv_init lines hnd)
  obtain ⟨hA, hB, _, _, _⟩ := h
  exact ⟨hA, hB⟩

/-- C6 witness: on the §8 `orders` scenario, the reported count 2 matches
the 3-line output file, and the total equals the sum of the reports. -/
theorem rowcount_roundtrip_witness :
    (process_dump ordersInput).final.totalRows =
      (((process_dump ordersInput).final.reports).map Prod.snd).sum
    ∧ (((process_dump ordersInput).final.files "orders").length : Int) = 2 + 1 := by
  have h := rowcount_roundtrip ordersInput (by decide)
  exact ⟨h.1, h.2 ("orders", 2) (by decide)⟩

/-! ### Claim C8 -/

theorem lookupFile_of_mem (d : CsvDir) (f : String) (h : f ∈ d.map Prod.fst) :
    ∃ n, lookupFile d f = some n := by
  induction d with
  | nil => simp at h
  | cons p ps ih =>
    simp only [List.map_cons, List.mem_cons] at h
    by_cases hpf : p.1 = f
    · exact ⟨p.2, by rw [lookupFile, if_pos hpf]⟩
    · rcases h with h1 | h2
      · exact absurd h1.symm hpf
      · obtain ⟨n, hn⟩ := ih h2
        exact ⟨n, by rw [lookupFile, if_neg hpf]; exact hn⟩

theorem mem_unionNames (dNew dOld : CsvDir) (f : String) :
    f ∈ unionNames dNew dOld ↔ (f ∈ dNew.map Prod.fst ∨ f ∈ dOld.map Prod.fst) := by
  have hperm := List.perm_insertionSort (α := String) (· ≤ ·)
    ((dNew.map Prod.fst ++ dOld.map Prod.fst).dedup)
  rw [unionNames, hperm.mem_iff, List.mem_dedup, List.mem_append]

theorem map_fst_pairing (g : String → FileComparison) (l : List String) :
    (l.map (fun a => (a, g a))).map Prod.fst = l := by
  induction l with
  | nil => rfl
  | cons a as ih => simp [ih]

theorem classifyFile_some_some (dNew dOld : CsvDir) (f : String) (n o : Nat)
    (hn : lookupFile dNew f = some n) (ho : lookupFile dOld f = some o) :
    classifyFile dNew dOld f =
      if (n : Int) - 1 = (o : Int) - 1 then FileComparison.unchanged ((n : Int) - 1)
      else FileComparison.changed ((n : Int) - 1) (((n : Int) - 1) - ((o : Int) - 1)) := by
  rw [classifyFile, ho, hn]

theorem results_mem (dNew dOld : CsvDir) (f : String) (c : FileComparison)
    (h : (f, c) ∈ (compare_with_last_export dNew (some dOld)).results) :
    f ∈ unionNames dNew dOld ∧ c = classifyFile dNew dOld f := by
  simp only [compare_with_last_export] at h
  rcases List.mem_map.mp h with ⟨a, ha, hg⟩
  injection hg with h1 h2
  subst h1
  exact ⟨ha, h2.symm⟩

/-- C8: the comparator visits exactly the filenames present in either
export directory, in sorted order; each is classified NEW when absent from
the previous directory, MISSING when absent from the new one, and otherwise
UNCHANGED or CHANGED by the signed difference of the data-line counts
(total lines minus the header line); and comparing a directory with itself
yields only UNCHANGED classifications. -/
theorem compare_classification :
    (∀ (dNew dOld : CsvDir) (f : String),
        f ∈ (compare_with_last_export dNew (some dOld)).results.map Prod.fst ↔
          (f ∈ dNew.map Prod.fst ∨ f ∈ dOld.map Prod.fst))
    ∧ (∀ dNew dOld : CsvDir,
        ((compare_with_last_export dNew (some dOld)).results.map Prod.fst).Sorted (· ≤ ·))
    ∧ (∀ (dNew dOld : CsvDir) (f : String) (c : FileComparison),
        (f, c) ∈ (compare_with_last_export dNew (some dOld)).results →
          (lookupFile dOld f = none → c = FileComparison.newFile)
          ∧ (∀ o, lookupFile dOld f = some o → lookupFile dNew f = none →
              c = FileComparison.missing)
          ∧ (∀ n o, lookupFile dNew f = some n → lookupFile dOld f = some o →
              ((n : Int) - 1 = (o : Int) - 1 →
                  c = FileComparison.unchanged ((n : Int) - 1))
              ∧ ((n : Int) - 1 ≠ (o : Int) - 1 →
                  c = FileComparison.changed ((n : Int) - 1)
                        (((n : Int) - 1) - ((o : Int) - 1)))))
    ∧ (∀ (d : CsvDir) (f : String) (c : FileComparison),
        (f, c) ∈ (compare_with_last_export d (some d)).results →
          ∃ r, c = FileComparison.unchanged r) := by
  have hnames : ∀ dNew dOld : CsvDir,
      (compare_with_last_export dNew (some dOld)).results.map Prod.fst =
        unionNames dNew dOld := by
    intro dNew dOld
    exact map_fst_pairing (classifyFile dNew dOld) (unionNames dNew dOld)
  refine ⟨?_, ?_, ?_, ?_⟩
  · intro dNew dOld f
    rw [hnames, mem_unionNames]
  · intro dNew dOld
    rw [hnames]
    exact List.sorted_insertionSort (· ≤ ·) _
  · intro dNew dOld f c h
    obtain ⟨_, hcls⟩ := results_mem dNew dOld f c h
    refine ⟨?_, ?_, ?_⟩
    · intro ho
      rw [hcls, classifyFile, ho]
    · intro o ho hn
      rw [hcls, classifyFile, ho, hn]
    · intro n o hn ho
      constructor
      · intro heq
        rw [hcls, classifyFile_some_some dNew dOld f n o hn ho, if_pos heq]
      · intro hne
        rw [hcls, classifyFile_some_some dNew dOld f n o hn ho, if_neg hne]
  · intro d f c h
    obtain ⟨hmem, hcls⟩ := results_mem d d f c h
    have hf : f ∈ d.map Prod.fst := by
      rcases (mem_unionNames d d f).mp hmem with h1 | h1 <;> exact h1
    obtain ⟨n, hn⟩ := lookupFile_of_mem d f hf
    refine ⟨(n : Int) - 1, ?_⟩
    rw [hcls, classifyFile, hn]
    simp

/-- C8 witness: the §8 comparator scenario — the same filename with 10 data
lines now and 7 before is classified CHANGED with delta `+3`. -/
theorem compare_classification_witness :
    ("a.csv", FileComparison.changed 10 3) ∈
      (compare_with_last_export [("a.csv", 11)] (some [("a.csv", 8)])).results
    ∧ FileComparison.changed 10 3 =
        FileComparison.changed (((11 : Nat) : Int) - 1)
          ((((11 : Nat) : Int) - 1) - (((8 : Nat) : Int) - 1)) := by
  refine ⟨by decide, ?_⟩
  exact ((compare_classification.2.2.1 [("a.csv", 11)] [("a.csv", 8)] "a.csv"
      (FileComparison.changed 10 3) (by decide)).2.2 11 8 (by decide) (by decide)).2
    (by decide)
